import Mathlib

/-!
Verification of the LLM abstraction layer (core/llm/index.ts) of the
continue repository: template-family autodetection, capability lookup,
token-budget enforcement, and the chat/completion streaming pipeline.
-/

namespace ContinueLLM

/-! ### Basic data model (ChatMessage, roles, message parts) -/

/-- Role of a chat message: the source's `ChatMessageRole` union
`"system" | "user" | "assistant"`. -/
inductive ChatMessageRole
  | system
  | user
  | assistant
deriving DecidableEq, Repr

/-- One typed part of a message body: plain text or an image reference
(the source's `MessagePart`). -/
inductive MessagePart
  | text (s : String)
  | image (url : String)
deriving DecidableEq, Repr

/-- A chat message (the source's `ChatMessage`): a role together with
ordered content parts; a plain-string content is the singleton
`[MessagePart.text s]`. -/
structure ChatMessage where
  role : ChatMessageRole
  content : List MessagePart
deriving DecidableEq, Repr

/-! ### String helpers: substring containment and lower-casing, mirrors of
JavaScript `String.prototype.includes` and `toLowerCase`. -/

/-- Whether the first character list starts the second (helper for
substring containment). -/
def listPre : List Char → List Char → Bool
  | [], _ => true
  | _ :: _, [] => false
  | a :: as, b :: bs => a == b && listPre as bs

/-- Whether the first character list occurs contiguously inside the
second. -/
def listHas (pat : List Char) : List Char → Bool
  | [] => pat.isEmpty
  | c :: cs => listPre pat (c :: cs) || listHas pat cs

/-- JavaScript `s.includes(pat)`: contiguous substring containment. -/
def strHas (s pat : String) : Bool := listHas pat.data s.data

/-- JavaScript `s.toLowerCase()` restricted to ASCII letters. -/
def lowerStr (s : String) : String := ⟨s.data.map Char.toLower⟩

/-! ### ModelCapabilityRegistry (index.ts lines 58-188) -/

/-- The source's closed `TemplateType` union. -/
inductive TemplateType
  | llama2
  | alpaca
  | phi2
  | phind
  | zephyr
  | anthropic
  | chatml
  | deepseek
  | openchat
  | xwinCoder
  | neuralChat
  | llava
  | codellama70b
  | none
deriving DecidableEq, Repr

/-- `PROVIDER_SUPPORTS_IMAGES` (index.ts line 65). -/
def PROVIDER_SUPPORTS_IMAGES : List String :=
  ["openai", "ollama", "google-palm", "free-trial"]

/-- `modelSupportsImages` (index.ts lines 72-96). -/
def modelSupportsImages (provider model : String) : Bool :=
  if !(PROVIDER_SUPPORTS_IMAGES.contains provider) then
    false
  else if strHas model "llava" then
    true
  else if ["gpt-4-vision-preview"].contains model then
    true
  else if model == "gemini-ultra" &&
      (provider == "google-palm" || provider == "free-trial") then
    true
  else
    false

/-- `autodetectTemplateType` (index.ts lines 119-188): ordered substring
cascade over the lower-cased model name; `Option.none` models the
source's `undefined` ("provider templates internally"). -/
def autodetectTemplateType (model : String) : Option TemplateType :=
  let lower := lowerStr model
  if strHas lower "codellama" && strHas lower "70b" then
    some .codellama70b
  else if strHas lower "gpt" || strHas lower "chat-bison" ||
      strHas lower "pplx" || strHas lower "gemini" then
    Option.none
  else if strHas lower "llava" then some .llava
  else if strHas lower "xwin" then some .xwinCoder
  else if strHas lower "dolphin" then some .chatml
  else if strHas lower "phi2" then some .phi2
  else if strHas lower "phind" then some .phind
  else if strHas lower "llama" then some .llama2
  else if strHas lower "zephyr" then some .zephyr
  else if strHas lower "claude" then some .anthropic
  else if strHas lower "alpaca" || strHas lower "wizard" then some .alpaca
  else if strHas lower "mistral" then some .llama2
  else if strHas lower "deepseek" then some .deepseek
  else if strHas lower "ninja" || strHas lower "openchat" then some .openchat
  else if strHas lower "neural-chat" then some .neuralChat
  else some .chatml

/-! ### PromptTemplateEngine: edit-prompt selection (index.ts 228-270) -/

/-- The edit prompt templates importable from `templates/edit` (their
bodies are irrelevant to selection, so they are enumerated by name). -/
inductive EditTemplate
  | phindEdit
  | simplifiedEdit
  | zephyrEdit
  | mistralEdit
  | codellamaEdit
  | alpacaEdit
  | deepseekEdit
  | openchatEdit
  | xWinCoderEdit
  | neuralChatEdit
  | codeLlama70bEdit
  | simplestEdit
deriving DecidableEq, Repr

/-- The resolved template type used by `autodetectPromptTemplates`:
JavaScript `explicitTemplate || autodetectTemplateType(model)` (every
`TemplateType` value is a non-empty string, hence truthy). -/
def resolvedTemplateType (model : String)
    (explicitTemplate : Option TemplateType) : Option TemplateType :=
  match explicitTemplate with
  | some t => some t
  | Option.none => autodetectTemplateType model

/-- `autodetectPromptTemplates` (index.ts lines 228-270): returns the
record of named prompt-template slots; only the "edit" slot is ever
populated. The final `else if (templateType)` of the source is JavaScript
truthiness, true for every defined `TemplateType` value including
`"none"`. The `llama2` branch tests `model.includes("mistral")` on the
original (not lower-cased) name, as the source does. -/
def autodetectPromptTemplates (model : String)
    (explicitTemplate : Option TemplateType) : List (String × EditTemplate) :=
  let templateType := resolvedTemplateType model explicitTemplate
  let editTemplate : Option EditTemplate :=
    if templateType == some .phind then some .phindEdit
    else if templateType == some .phi2 then some .simplifiedEdit
    else if templateType == some .zephyr then some .zephyrEdit
    else if templateType == some .llama2 then
      (if strHas model "mistral" then some .mistralEdit
       else some .codellamaEdit)
    else if templateType == some .alpaca then some .alpacaEdit
    else if templateType == some .deepseek then some .deepseekEdit
    else if templateType == some .openchat then some .openchatEdit
    else if templateType == some .xwinCoder then some .xWinCoderEdit
    else if templateType == some .neuralChat then some .neuralChatEdit
    else if templateType == some .codellama70b then some .codeLlama70bEdit
    else if templateType.isSome then some .simplestEdit
    else Option.none
  match editTemplate with
  | some e => [("edit", e)]
  | Option.none => []

/-! ### TokenBudgetManager -/

/-- Modelled from the spec: `countTokens` lives in core/llm/countTokens.ts,
which is not under src/. "a deterministic, model-family-specific token
count; identical text and model always yield the identical count"; the
model here counts one token per character. -/
def countTokens (text : String) (model : String) : Nat := text.data.length

/-- Modelled from the spec: token cost of one message part; an image
reference costs one token, text costs `countTokens`. -/
def partTokens (model : String) : MessagePart → Nat
  | .text s => countTokens s model
  | .image _ => 1

/-- Token cost of a message body. -/
def contentTokens (model : String) (ps : List MessagePart) : Nat :=
  (ps.map (partTokens model)).sum

/-- Token cost of one chat message. -/
def msgTokens (model : String) (m : ChatMessage) : Nat :=
  contentTokens model m.content

/-- Serialized token count of a message sequence. -/
def chatTokens (model : String) (msgs : List ChatMessage) : Nat :=
  (msgs.map (msgTokens model)).sum

/-- Modelled from the spec: `stripImages` of core/llm/countTokens.ts (not
under src/) removes image parts from a message, keeping text parts. -/
def stripImages (m : ChatMessage) : ChatMessage :=
  ⟨m.role, m.content.filter fun p =>
    match p with
    | .text _ => true
    | .image _ => false⟩

/-- Rule (1) of the spec's `compileChatMessages`: if the model does not
support images, strip image parts from every message before counting. -/
def prepareMessages (supportsImages : Bool) (msgs : List ChatMessage) :
    List ChatMessage :=
  if supportsImages then msgs else msgs.map stripImages

/-- Truncate a part list to at most `n` tokens, cutting the first
over-budget text part and dropping the rest. -/
def truncParts (model : String) : List MessagePart → Nat → List MessagePart
  | [], _ => []
  | p :: ps, n =>
    let t := partTokens model p
    if t ≤ n then p :: truncParts model ps (n - t)
    else
      match p with
      | .text s => [.text ⟨s.data.take n⟩]
      | .image _ => []

/-- Truncate one message to at most `n` tokens of content. -/
def truncMsg (model : String) (m : ChatMessage) (n : Nat) : ChatMessage :=
  ⟨m.role, truncParts model m.content n⟩

/-- Decompose a message list around its most recent user-role message:
`some (pre, u, post)` with the input equal to `pre ++ [u] ++ post` and no
user message in `post`. -/
def splitLastUser : List ChatMessage →
    Option (List ChatMessage × ChatMessage × List ChatMessage)
  | [] => Option.none
  | m :: ms =>
    match splitLastUser ms with
    | some (pre, u, post) => some (m :: pre, u, post)
    | Option.none =>
      if m.role = ChatMessageRole.user then some ([], m, ms)
      else Option.none

/-- Rule (3) of the spec's `compileChatMessages`: remove whole messages
from the oldest end until the remainder fits the budget. -/
def dropOldest (model : String) : List ChatMessage → Nat → List ChatMessage
  | [], _ => []
  | m :: ms, n =>
    if chatTokens model (m :: ms) ≤ n then m :: ms
    else dropOldest model ms n

/-- Rule (4) of the spec's `compileChatMessages`: an optional system
message is accounted for in the budget (truncated to it if oversized) and
prepended. -/
def sysMessages (model : String) (budget : Nat)
    (systemMessage : Option String) : List ChatMessage :=
  match systemMessage with
  | some s => [⟨ChatMessageRole.system, truncParts model [.text s] budget⟩]
  | Option.none => []

/-- Modelled from the spec: `compileChatMessages` lives in
core/llm/countTokens.ts, which is not under src/. It "produces a message
sequence whose rendered token count fits within
`contextLength - maxTokens`", (1) strips images when unsupported,
(2) never drops the most recent user message (the spec leaves the
single-oversized-message policy open; this model hard-truncates it),
(3) removes from the oldest retained context preserving relative order,
and (4) accounts for and prepends the optional system message. -/
def compileChatMessages (model : String) (msgs : List ChatMessage)
    (contextLength maxTokens : Nat) (supportsImages : Bool)
    (systemMessage : Option String) : List ChatMessage :=
  let budget := contextLength - maxTokens
  let prepared := prepareMessages supportsImages msgs
  let sys := sysMessages model budget systemMessage
  let rem1 := budget - chatTokens model sys
  match splitLastUser prepared with
  | Option.none => sys ++ dropOldest model prepared rem1
  | some (pre, u, post) =>
    let u' := truncMsg model u rem1
    let rem2 := rem1 - msgTokens model u'
    let kept := dropOldest model (pre ++ post) rem2
    let k := kept.length - post.length
    sys ++ kept.take k ++ [u'] ++ kept.drop k

/-- Modelled from the spec: `pruneRawPromptFromTop` of
core/llm/countTokens.ts (not under src/) "removes content from the
beginning, keeping the tail, until the remaining text's token count is ≤
`contextLength - maxTokens`", trimming at line boundaries. -/
def pruneTop (model : String) (budget : Nat) : List String → String
  | [] => ""
  | l :: ls =>
    let s := String.intercalate "\x0a" (l :: ls)
    if countTokens s model ≤ budget then s else pruneTop model budget ls

/-- Modelled from the spec: `pruneRawPromptFromTop` (core/llm/countTokens.ts
is not under src/): a flat prompt short enough for the budget is returned
unchanged, otherwise lines are removed from the top. -/
def pruneRawPromptFromTop (model : String) (contextLength : Nat)
    (prompt : String) (maxTokens : Nat) : String :=
  if countTokens prompt model ≤ contextLength - maxTokens then prompt
  else pruneTop model (contextLength - maxTokens) (prompt.splitOn "\x0a")

/-! ### CompletionOptions, option parsing and merging -/

/-- Modelled from the spec: `DEFAULT_MAX_TOKENS` of core/llm/constants.ts
(not under src/); its numeric value affects no claim. -/
def DEFAULT_MAX_TOKENS : Nat := 1024

/-- Modelled from the spec: `DEFAULT_CONTEXT_LENGTH` of
core/llm/constants.ts (not under src/). -/
def DEFAULT_CONTEXT_LENGTH : Nat := 4096

/-- Modelled from the spec: `CONTEXT_LENGTH_FOR_MODEL` of
core/llm/constants.ts (not under src/): per-model default context
lengths keyed by model name. -/
def CONTEXT_LENGTH_FOR_MODEL : List (String × Nat) :=
  [("gpt-3.5-turbo", 4096), ("gpt-3.5-turbo-0613", 4096),
   ("gpt-3.5-turbo-16k", 16384), ("gpt-4", 8192), ("gpt-35-turbo-16k", 16384),
   ("gpt-35-turbo-0613", 4096), ("gpt-35-turbo", 4096), ("gpt-4-32k", 32768)]

/-- The effective `CompletionOptions` of a call: model and maxTokens are
always set after construction; remaining keys are kept opaque. -/
structure CompletionOptions where
  model : String
  maxTokens : Nat
  extra : List (String × String)
deriving DecidableEq, Repr

/-- The caller-supplied `LLMFullCompletionOptions` object:
`CompletionOptions` keys plus the call-control flags `log` and `raw`;
absent keys are `Option.none`. -/
structure LLMFullCompletionOptions where
  log : Option Bool
  raw : Option Bool
  model : Option String
  maxTokens : Option Nat
  extra : List (String × String)
deriving DecidableEq, Repr

/-- JavaScript falsiness of a number: `x || d` yields `d` when `x` is 0. -/
def orDefaultNat (x d : Nat) : Nat := if x == 0 then d else x

/-- Modelled from the spec: `mergeJson` of util/merge.ts (not under src/)
is "a deep, key-wise override, not a shallow replace": keys present in
the override layer win. -/
def mergeJson (base : CompletionOptions) (o : LLMFullCompletionOptions) :
    CompletionOptions :=
  { model := o.model.getD base.model,
    maxTokens := o.maxTokens.getD base.maxTokens,
    extra := base.extra.filter
        (fun kv => !(o.extra.any (fun kv2 => kv2.1 == kv.1))) ++ o.extra }

/-- Result of `_parseCompletionOptions` (index.ts lines 462-474): the
merged per-call options, the extracted `log`/`raw` flags, and the
caller's object after `delete options.log; delete options.raw`. -/
structure ParsedOptions where
  completionOptions : CompletionOptions
  log : Bool
  raw : Bool
  mutated : LLMFullCompletionOptions
deriving Repr

/-- `_parseCompletionOptions` (index.ts lines 462-474): reads `log`
(default true) and `raw` (default false), deletes both keys from the
caller's object, then merges the instance defaults with what is left. -/
def parseCompletionOptions (base : CompletionOptions)
    (options : LLMFullCompletionOptions) : ParsedOptions :=
  let log := options.log.getD true
  let raw := options.raw.getD false
  let mutated := { options with log := Option.none, raw := Option.none }
  { completionOptions := mergeJson base mutated, log := log, raw := raw,
    mutated := mutated }

/-! ### The BaseLLM instance configuration and provider transport -/

/-- The immutable per-instance configuration of a `BaseLLM` (the fields
the direct-path operations read). -/
structure LLMConfig where
  providerName : String
  model : String
  contextLength : Nat
  systemMessage : Option String
  templateMessages : Option (List ChatMessage → String)
  completionOptions : CompletionOptions

/-- The concrete provider's optional overrides of the protected
transport methods `_streamComplete` and `_streamChat`; `Option.none`
means the `BaseLLM` default body runs. Transports are finite chunk
sequences. -/
structure ProviderTransport where
  streamCompleteImpl : Option (String → CompletionOptions → List String)
  streamChatImpl : Option (List ChatMessage → CompletionOptions → List ChatMessage)

/-- Concatenated text of a message body (JavaScript string accumulation
of `chunk.content`). -/
def contentText (ps : List MessagePart) : String :=
  ps.foldl
    (fun acc p =>
      match p with
      | .text s => acc ++ s
      | .image _ => acc) ""

/-- Accumulation `completion += chunk.content` over yielded fragments. -/
def concatContents (frags : List ChatMessage) : String :=
  frags.foldl (fun acc m => acc ++ contentText m.content) ""

/-- `_streamComplete` (index.ts lines 665-670): the base body throws
"Not implemented"; a provider override streams its chunks. -/
def baseStreamComplete (t : ProviderTransport) (prompt : String)
    (options : CompletionOptions) : Except String (List String) :=
  match t.streamCompleteImpl with
  | some f => Except.ok (f prompt options)
  | Option.none => Except.error "Not implemented"

/-- `_streamChat` (index.ts lines 672-688): a provider override streams
role-tagged fragments; the base body throws a configuration error when
`templateMessages` is absent, and otherwise renders the messages and
adapts `_streamComplete`, tagging each chunk as assistant. -/
def baseStreamChat (cfg : LLMConfig) (t : ProviderTransport)
    (messages : List ChatMessage) (options : CompletionOptions) :
    Except String (List ChatMessage) :=
  match t.streamChatImpl with
  | some f => Except.ok (f messages options)
  | Option.none =>
    match cfg.templateMessages with
    | Option.none =>
      Except.error "You must either implement templateMessages or _streamChat"
    | some tm =>
      match baseStreamComplete t (tm messages) options with
      | Except.ok chunks =>
        Except.ok (chunks.map fun c => ⟨ChatMessageRole.assistant, [.text c]⟩)
      | Except.error e => Except.error e

/-- `_templatePromptLikeMessages` (index.ts lines 395-408). -/
def templatePromptLikeMessages (cfg : LLMConfig) (prompt : String) : String :=
  match cfg.templateMessages with
  | Option.none => prompt
  | some tm =>
    let msgs : List ChatMessage := [⟨ChatMessageRole.user, [.text prompt]⟩]
    let msgs :=
      match cfg.systemMessage with
      | some s => (⟨ChatMessageRole.system, [.text s]⟩ : ChatMessage) :: msgs
      | Option.none => msgs
    tm msgs

/-- String form of a role, as interpolated by `_formatChatMessages`. -/
def roleStr : ChatMessageRole → String
  | .system => "system"
  | .user => "user"
  | .assistant => "assistant"

/-- `_formatChatMessages` (index.ts lines 476-482). -/
def formatChatMessages (messages : List ChatMessage) : String :=
  messages.foldl
    (fun acc m =>
      acc ++ "<" ++ roleStr m.role ++ ">" ++ "\x0a" ++ contentText m.content
        ++ "\x0a\x0a") ""

/-- `_compileChatMessages` (index.ts lines 364-388): picks the context
length (the per-model table wins when the per-call model differs from the
instance model and is a table key), applies the JavaScript
`maxTokens || DEFAULT_MAX_TOKENS` default, and calls
`compileChatMessages` with the instance's image support and system
message. -/
def compileChatMessagesWrapper (cfg : LLMConfig)
    (options : CompletionOptions) (messages : List ChatMessage) :
    List ChatMessage :=
  let contextLength :=
    if options.model ≠ cfg.model then
      match CONTEXT_LENGTH_FOR_MODEL.lookup options.model with
      | some n => orDefaultNat n DEFAULT_CONTEXT_LENGTH
      | Option.none => cfg.contextLength
    else cfg.contextLength
  compileChatMessages options.model messages contextLength
    (orDefaultNat options.maxTokens DEFAULT_MAX_TOKENS)
    (modelSupportsImages cfg.providerName cfg.model) cfg.systemMessage

/-! ### StreamingCompletionPipeline -/

/-- Which path `_shouldRequestDirectly` selected (the predicate itself
reads the host environment's `window` object, which is outside the
embedding; both branch bodies are embedded). -/
inductive Route
  | direct
  | proxied
deriving DecidableEq, Repr

/-- The host-proxy stream consumed on the proxied path: incremental
string chunks followed by a terminal `{prompt, completion}` value whose
fields may be absent. -/
structure HostStream where
  chunks : List String
  finalPrompt : Option String
  finalCompletion : Option String

/-- Return value of the streaming generators (`LLMReturnValue`);
optional because the proxied terminal value may lack the fields. -/
structure LLMReturnValue where
  prompt : Option String
  completion : Option String
deriving DecidableEq, Repr

/-- Outcome of a direct-path `streamComplete` run: the yielded chunks in
order and the generator's return value. -/
structure StreamOutcome where
  yielded : List String
  retPrompt : String
  retCompletion : String
deriving DecidableEq, Repr

/-- The final rendered prompt of the direct completion path: prune from
the top, then (unless `raw`) wrap as a synthetic user message and render
through the template. -/
def renderCompletionPrompt (cfg : LLMConfig) (raw : Bool)
    (co : CompletionOptions) (prompt : String) : String :=
  let pruned := pruneRawPromptFromTop co.model cfg.contextLength prompt
    (orDefaultNat co.maxTokens DEFAULT_MAX_TOKENS)
  if raw then pruned else templatePromptLikeMessages cfg pruned

/-- Direct path of `streamComplete` (index.ts lines 484-543): parse the
call options (mutating the caller's object), prune and render the
prompt, stream the transport's chunks while accumulating them, and
return `{prompt, completion}`. The second component is the caller's
options object after the call. -/
def streamCompleteDirect (cfg : LLMConfig) (t : ProviderTransport)
    (prompt : String) (options : LLMFullCompletionOptions) :
    Except String StreamOutcome × LLMFullCompletionOptions :=
  let parsed := parseCompletionOptions cfg.completionOptions options
  let rendered := renderCompletionPrompt cfg parsed.raw
    parsed.completionOptions prompt
  let body :=
    match baseStreamComplete t rendered parsed.completionOptions with
    | Except.ok chunks =>
      Except.ok
        ⟨chunks, rendered, chunks.foldl (fun acc c => acc ++ c) ""⟩
    | Except.error e => Except.error e
  (body, parsed.mutated)

/-- Direct path of `complete` (index.ts lines 545-587): like
`streamCompleteDirect` but draining `_streamComplete` through
`_complete` and returning only the final string. -/
def completeDirect (cfg : LLMConfig) (t : ProviderTransport)
    (prompt : String) (options : LLMFullCompletionOptions) :
    Except String String × LLMFullCompletionOptions :=
  let parsed := parseCompletionOptions cfg.completionOptions options
  let rendered := renderCompletionPrompt cfg parsed.raw
    parsed.completionOptions prompt
  let body :=
    match baseStreamComplete t rendered parsed.completionOptions with
    | Except.ok chunks =>
      Except.ok (chunks.foldl (fun acc c => acc ++ c) "")
    | Except.error e => Except.error e
  (body, parsed.mutated)

/-- Direct path of `streamChat` (index.ts lines 615-663): parse options
(mutating the caller's object), compile the messages, render the prompt;
with a template stream through `_streamComplete` tagging chunks as
assistant fragments, otherwise delegate to `_streamChat`; errors
propagate after being logged. -/
def streamChatDirect (cfg : LLMConfig) (t : ProviderTransport)
    (messages : List ChatMessage) (options : LLMFullCompletionOptions) :
    Except String (List ChatMessage × LLMReturnValue) ×
      LLMFullCompletionOptions :=
  let parsed := parseCompletionOptions cfg.completionOptions options
  let compiled := compileChatMessagesWrapper cfg parsed.completionOptions
    messages
  let prompt :=
    match cfg.templateMessages with
    | some tm => tm compiled
    | Option.none => formatChatMessages compiled
  let body :=
    match cfg.templateMessages with
    | some _ =>
      match baseStreamComplete t prompt parsed.completionOptions with
      | Except.ok chunks =>
        Except.ok
          (chunks.map (fun c => (⟨ChatMessageRole.assistant, [.text c]⟩ :
              ChatMessage)),
            ⟨some prompt, some (chunks.foldl (fun acc c => acc ++ c) "")⟩)
      | Except.error e => Except.error e
    | Option.none =>
      match baseStreamChat cfg t compiled parsed.completionOptions with
      | Except.ok frags =>
        Except.ok (frags, ⟨some prompt, some (concatContents frags)⟩)
      | Except.error e => Except.error e
  (body, parsed.mutated)

/-- Proxied path of `streamChat` (index.ts lines 601-613): relay every
host chunk as a `{role: "user", content: chunk}` fragment, then return
the host's terminal `{prompt, completion}`. The caller's options object
is forwarded to the host unparsed and unmutated. -/
def streamChatProxied (host : HostStream) :
    List ChatMessage × LLMReturnValue :=
  (host.chunks.map fun c => ⟨ChatMessageRole.user, [.text c]⟩,
    ⟨host.finalPrompt, host.finalCompletion⟩)

/-- `streamChat` (index.ts lines 597-663), with the routing decision of
`_shouldRequestDirectly` made explicit. -/
def streamChat (route : Route) (cfg : LLMConfig) (t : ProviderTransport)
    (host : HostStream) (messages : List ChatMessage)
    (options : LLMFullCompletionOptions) :
    Except String (List ChatMessage × LLMReturnValue) ×
      LLMFullCompletionOptions :=
  match route with
  | Route.proxied => (Except.ok (streamChatProxied host), options)
  | Route.direct => streamChatDirect cfg t messages options

/-- `chat` (index.ts lines 589-595): drain `streamChat`, accumulating
`completion += chunk.content`, and return one assistant message. -/
def chat (route : Route) (cfg : LLMConfig) (t : ProviderTransport)
    (host : HostStream) (messages : List ChatMessage)
    (options : LLMFullCompletionOptions) :
    Except String ChatMessage × LLMFullCompletionOptions :=
  let r := streamChat route cfg t host messages options
  (match r.1 with
   | Except.ok (frags, _) =>
     Except.ok ⟨ChatMessageRole.assistant, [.text (concatContents frags)]⟩
   | Except.error e => Except.error e,
   r.2)

/-! ### Theorems: ModelCapabilityRegistry -/

/-- No condition of the `autodetectTemplateType` cascade (other than the
final default) fires on the lower-cased model name. -/
def noTemplateMarker (s : String) : Bool :=
  let l := lowerStr s
  !(strHas l "codellama" && strHas l "70b") &&
  !(strHas l "gpt" || strHas l "chat-bison" || strHas l "pplx" ||
    strHas l "gemini") &&
  !strHas l "llava" && !strHas l "xwin" && !strHas l "dolphin" &&
  !strHas l "phi2" && !strHas l "phind" && !strHas l "llama" &&
  !strHas l "zephyr" && !strHas l "claude" &&
  !(strHas l "alpaca" || strHas l "wizard") && !strHas l "mistral" &&
  !strHas l "deepseek" && !(strHas l "ninja" || strHas l "openchat") &&
  !strHas l "neural-chat"

/-- C6: `autodetectTemplateType` is total and deterministic — every
model-name string yields exactly one result (so two calls with the same
string agree) — and any string matching none of the specific substring
rules (and containing no gpt/chat-bison/pplx/gemini marker) is
classified as the default family `chatml`. -/
theorem autodetectTemplateType_total_default_chatml (s : String) :
    (∃! r, autodetectTemplateType s = r) ∧
    (noTemplateMarker s = true →
      autodetectTemplateType s = some TemplateType.chatml) := by
  refine ⟨⟨autodetectTemplateType s, rfl, fun y h => h.symm⟩, fun h => ?_⟩
  simp [noTemplateMarker] at h
  obtain ⟨⟨⟨⟨⟨⟨⟨⟨⟨⟨⟨⟨⟨⟨hA, ⟨⟨hgpt, hbison⟩, hpplx⟩, hgemini⟩, hC⟩, hD⟩, hE⟩,
    hF⟩, hG⟩, hH⟩, hI⟩, hJ⟩, halpaca, hwizard⟩, hL⟩, hM⟩, hninja, hopen⟩,
    hO⟩ := h
  have hcond : (strHas (lowerStr s) "codellama" &&
      strHas (lowerStr s) "70b") = false := by
    rcases hA with h | h <;> simp [h]
  simp [autodetectTemplateType, hcond, hgpt, hbison, hpplx, hgemini, hC, hD,
    hE, hF, hG, hH, hI, hJ, halpaca, hwizard, hL, hM, hninja, hopen, hO]

/-- Witness for C6 at the concrete model name "mymodel-7b". -/
theorem autodetectTemplateType_total_default_chatml_witness :
    noTemplateMarker "mymodel-7b" = true ∧
      autodetectTemplateType "mymodel-7b" = some TemplateType.chatml :=
  ⟨by decide,
    (autodetectTemplateType_total_default_chatml "mymodel-7b").2 (by decide)⟩

/-- C7: any model name containing (case-insensitively) both "codellama"
and "70b" is classified `codellama-70b`, regardless of what other family
markers it also contains, because this rule is checked first. -/
theorem autodetectTemplateType_codellama70b_priority (model : String)
    (h1 : strHas (lowerStr model) "codellama" = true)
    (h2 : strHas (lowerStr model) "70b" = true) :
    autodetectTemplateType model = some TemplateType.codellama70b := by
  simp [autodetectTemplateType, h1, h2]

/-- Witness for C7: a name that also contains the "gpt" and "llama"
markers is still classified `codellama-70b`. -/
theorem autodetectTemplateType_codellama70b_priority_witness :
    autodetectTemplateType "CodeLlama-70B-GPT-Instruct" =
      some TemplateType.codellama70b :=
  autodetectTemplateType_codellama70b_priority "CodeLlama-70B-GPT-Instruct"
    (by decide) (by decide)

/-- C8: the four capability-lookup examples of the spec. -/
theorem modelSupportsImages_spec_examples :
    modelSupportsImages "openai" "gpt-4-vision-preview" = true ∧
    modelSupportsImages "openai" "gpt-3.5-turbo" = false ∧
    modelSupportsImages "google-palm" "gemini-ultra" = true ∧
    modelSupportsImages "anthropic" "claude-2" = false := by
  decide

/-- C5 counterexample: when the resolved template type is the literal
`none`, `autodetectPromptTemplates` does NOT return a mapping free of an
"edit" entry — the JavaScript-truthy `else if (templateType)` branch
assigns the generic `simplestEditPrompt` to it. -/
theorem promptTemplates_none_still_populates_edit :
    resolvedTemplateType "somemodel" (some TemplateType.none) =
        some TemplateType.none ∧
      (autodetectPromptTemplates "somemodel"
          (some TemplateType.none)).lookup "edit" =
        some EditTemplate.simplestEdit := by
  decide

/-- C5 (amended): `autodetectPromptTemplates` populates the "edit" slot
for every resolved template type, `none` included (where it resolves to
the generic `simplestEditPrompt`); the returned mapping lacks an "edit"
entry exactly when the resolved template type is undefined (the model
matches a gpt/chat-bison/pplx/gemini marker and no explicit template is
given). -/
theorem promptTemplates_edit_totality (model : String)
    (explicitTemplate : Option TemplateType) :
    (resolvedTemplateType model explicitTemplate = Option.none →
      autodetectPromptTemplates model explicitTemplate = []) ∧
    (∀ t, resolvedTemplateType model explicitTemplate = some t →
      (autodetectPromptTemplates model explicitTemplate).lookup "edit" ≠
        Option.none) := by
  constructor
  · intro h
    simp [autodetectPromptTemplates, h]
  · intro t h
    simp only [autodetectPromptTemplates, h]
    by_cases hm : strHas model "mistral" = true <;>
      cases t <;> simp [List.lookup, hm]

/-- Witness for C5 (amended): a self-templating model name yields no
"edit" entry; an explicit `none` template still yields one. -/
theorem promptTemplates_edit_totality_witness :
    autodetectPromptTemplates "gpt-4" Option.none = [] ∧
      (autodetectPromptTemplates "x" (some TemplateType.none)).lookup "edit" ≠
        Option.none :=
  ⟨(promptTemplates_edit_totality "gpt-4" Option.none).1 (by decide),
    (promptTemplates_edit_totality "x" (some TemplateType.none)).2
      TemplateType.none (by decide)⟩

/-! ### Theorems: StreamingCompletionPipeline -/

/-- A concrete instance configuration used by the pipeline witnesses:
no chat template, no system message, ample context. -/
def cfg0 : LLMConfig :=
  { providerName := "anthropic", model := "claude-2", contextLength := 100,
    systemMessage := Option.none, templateMessages := Option.none,
    completionOptions := { model := "claude-2", maxTokens := 10, extra := [] } }

/-- A concrete provider transport whose completion stream emits the
chunks "a", "b", "c". -/
def t0 : ProviderTransport :=
  { streamCompleteImpl := some fun _ _ => ["a", "b", "c"],
    streamChatImpl := Option.none }

/-- A provider transport overriding neither protected method. -/
def tEmpty : ProviderTransport :=
  { streamCompleteImpl := Option.none, streamChatImpl := Option.none }

/-- A concrete host-proxy stream emitting "a" then "b" with no terminal
fields. -/
def host0 : HostStream :=
  { chunks := ["a", "b"], finalPrompt := Option.none,
    finalCompletion := Option.none }

/-- A caller options object with every key absent. -/
def opts0 : LLMFullCompletionOptions :=
  { log := Option.none, raw := Option.none, model := Option.none,
    maxTokens := Option.none, extra := [] }

/-- C2: on the direct path, `streamComplete` yields exactly the chunk
sequence produced by the provider transport `_streamComplete`, in the
transport's order, and returns the final rendered prompt together with a
completion equal to the concatenation of the yielded chunks. -/
theorem streamComplete_direct_yields_transport_chunks (cfg : LLMConfig)
    (t : ProviderTransport) (f : String → CompletionOptions → List String)
    (prompt : String) (options : LLMFullCompletionOptions)
    (hf : t.streamCompleteImpl = some f) :
    (streamCompleteDirect cfg t prompt options).1 =
      (let parsed := parseCompletionOptions cfg.completionOptions options
       let rendered := renderCompletionPrompt cfg parsed.raw
         parsed.completionOptions prompt
       Except.ok
         ⟨f rendered parsed.completionOptions, rendered,
           String.join (f rendered parsed.completionOptions)⟩) := by
  simp [streamCompleteDirect, baseStreamComplete, hf, String.join]

/-- Witness for C2: the spec's synthetic-transport scenario — chunks
["a","b","c"] are yielded and the accumulated completion is "abc". -/
theorem streamComplete_direct_yields_transport_chunks_witness :
    (streamCompleteDirect cfg0 t0 "p" opts0).1 =
      Except.ok ⟨["a", "b", "c"], "p", "abc"⟩ := by
  rw [streamComplete_direct_yields_transport_chunks cfg0 t0
    (fun _ _ => ["a", "b", "c"]) "p" opts0 rfl]
  rfl

/-- C3: `chat` consumes `streamChat` to exhaustion and returns exactly
one assistant-role message whose content is the concatenation, in yield
order, of the content of every fragment `streamChat` yielded. -/
theorem chat_drains_streamChat (route : Route) (cfg : LLMConfig)
    (t : ProviderTransport) (host : HostStream)
    (messages : List ChatMessage) (options : LLMFullCompletionOptions)
    (frags : List ChatMessage) (ret : LLMReturnValue)
    (h : (streamChat route cfg t host messages options).1 =
      Except.ok (frags, ret)) :
    (chat route cfg t host messages options).1 =
      Except.ok
        ⟨ChatMessageRole.assistant, [.text (concatContents frags)]⟩ := by
  simp [chat, h]

/-- Witness for C3 on the proxied route with host chunks "a", "b". -/
theorem chat_drains_streamChat_witness :
    (chat Route.proxied cfg0 t0 host0 [] opts0).1 =
      Except.ok ⟨ChatMessageRole.assistant, [.text "ab"]⟩ := by
  rw [chat_drains_streamChat Route.proxied cfg0 t0 host0 [] opts0
    [⟨ChatMessageRole.user, [.text "a"]⟩, ⟨ChatMessageRole.user, [.text "b"]⟩]
    ⟨Option.none, Option.none⟩ rfl]
  rfl

/-- C4: with no `templateMessages` function and a provider overriding
neither `_streamChat` nor `_streamComplete`, the direct path of
`streamChat` fails by throwing the configuration error of the base
`_streamChat` body. -/
theorem streamChat_direct_misconfiguration_errors (cfg : LLMConfig)
    (t : ProviderTransport) (messages : List ChatMessage)
    (options : LLMFullCompletionOptions)
    (h1 : cfg.templateMessages = Option.none)
    (h2 : t.streamChatImpl = Option.none)
    (h3 : t.streamCompleteImpl = Option.none) :
    (streamChatDirect cfg t messages options).1 =
      Except.error
        "You must either implement templateMessages or _streamChat" := by
  simp [streamChatDirect, baseStreamChat, h1, h2, h3]

/-- Witness for C4 on a concrete template-free, transport-free
instance. -/
theorem streamChat_direct_misconfiguration_errors_witness :
    (streamChatDirect cfg0 tEmpty [] opts0).1 =
      Except.error
        "You must either implement templateMessages or _streamChat" :=
  streamChat_direct_misconfiguration_errors cfg0 tEmpty [] opts0 rfl rfl rfl

/-- C9: each direct-path operation returns the caller-supplied options
object with exactly the `log` and `raw` keys deleted by
`_parseCompletionOptions` — they are absent afterwards, and every other
key is unchanged. -/
theorem direct_calls_delete_log_raw_only (cfg : LLMConfig)
    (t : ProviderTransport) (prompt : String)
    (messages : List ChatMessage) (options : LLMFullCompletionOptions) :
    (completeDirect cfg t prompt options).2 =
        { options with log := Option.none, raw := Option.none } ∧
      (streamCompleteDirect cfg t prompt options).2 =
        { options with log := Option.none, raw := Option.none } ∧
      (streamChatDirect cfg t messages options).2 =
        { options with log := Option.none, raw := Option.none } :=
  ⟨rfl, rfl, rfl⟩

/-- C10: on the proxied path, every fragment yielded by `streamChat`
carries role "user". -/
theorem streamChat_proxied_fragments_role_user (cfg : LLMConfig)
    (t : ProviderTransport) (host : HostStream)
    (messages : List ChatMessage) (options : LLMFullCompletionOptions)
    (frags : List ChatMessage) (ret : LLMReturnValue)
    (h : (streamChat Route.proxied cfg t host messages options).1 =
      Except.ok (frags, ret)) :
    ∀ m ∈ frags, m.role = ChatMessageRole.user := by
  simp [streamChat, streamChatProxied] at h
  obtain ⟨hf, -⟩ := h
  subst hf
  intro m hm
  simp [List.mem_map] at hm
  obtain ⟨c, -, rfl⟩ := hm
  rfl

/-- Witness for C10: the first relayed fragment of a concrete proxied
call has role "user". -/
theorem streamChat_proxied_fragments_role_user_witness :
    (⟨ChatMessageRole.user, [.text "a"]⟩ : ChatMessage).role =
      ChatMessageRole.user :=
  streamChat_proxied_fragments_role_user cfg0 t0 host0 [] opts0
    [⟨ChatMessageRole.user, [.text "a"]⟩, ⟨ChatMessageRole.user, [.text "b"]⟩]
    ⟨Option.none, Option.none⟩ rfl
    ⟨ChatMessageRole.user, [.text "a"]⟩ (by decide)

/-! ### Theorems: TokenBudgetManager -/

/-- Truncation bound: a truncated part list costs at most the allowance. -/
theorem contentTokens_truncParts_le (model : String) (ps : List MessagePart)
    (n : Nat) : contentTokens model (truncParts model ps n) ≤ n := by
  induction ps generalizing n with
  | nil => simp [truncParts, contentTokens]
  | cons p ps ih =>
    simp only [truncParts]
    by_cases h : partTokens model p ≤ n
    · simp only [if_pos h, contentTokens, List.map_cons, List.sum_cons]
      have := ih (n - partTokens model p)
      simp only [contentTokens] at this
      omega
    · simp only [if_neg h]
      cases p with
      | text s =>
        simp [contentTokens, partTokens, countTokens]
      | image url => simp [contentTokens]

/-- A truncated message costs at most the allowance. -/
theorem msgTokens_truncMsg_le (model : String) (m : ChatMessage) (n : Nat) :
    msgTokens model (truncMsg model m n) ≤ n :=
  contentTokens_truncParts_le model m.content n

/-- Truncation preserves the message role. -/
theorem truncMsg_role (model : String) (m : ChatMessage) (n : Nat) :
    (truncMsg model m n).role = m.role := rfl

/-- `dropOldest` enforces its budget. -/
theorem chatTokens_dropOldest_le (model : String) (l : List ChatMessage)
    (n : Nat) : chatTokens model (dropOldest model l n) ≤ n := by
  induction l with
  | nil => simp [dropOldest, chatTokens]
  | cons m ms ih =>
    simp only [dropOldest]
    by_cases h : chatTokens model (m :: ms) ≤ n
    · simpa [if_pos h]
    · simpa [if_neg h] using ih

/-- Token counting distributes over concatenation. -/
theorem chatTokens_append (model : String) (a b : List ChatMessage) :
    chatTokens model (a ++ b) = chatTokens model a + chatTokens model b := by
  simp [chatTokens]

/-- The (possibly truncated) system-message block fits the budget. -/
theorem chatTokens_sysMessages_le (model : String) (budget : Nat)
    (systemMessage : Option String) :
    chatTokens model (sysMessages model budget systemMessage) ≤ budget := by
  cases systemMessage with
  | none => simp [sysMessages, chatTokens]
  | some s =>
    simpa [sysMessages, chatTokens, msgTokens] using
      contentTokens_truncParts_le model [.text s] budget

/-- The message picked by `splitLastUser` has role user. -/
theorem splitLastUser_role (l pre : List ChatMessage) (u : ChatMessage)
    (post : List ChatMessage)
    (h : splitLastUser l = some (pre, u, post)) :
    u.role = ChatMessageRole.user := by
  induction l generalizing pre u post with
  | nil => simp [splitLastUser] at h
  | cons m ms ih =>
    simp only [splitLastUser] at h
    cases hs : splitLastUser ms with
    | some triple =>
      obtain ⟨p, u2, post2⟩ := triple
      rw [hs] at h
      simp only [Option.some.injEq, Prod.mk.injEq] at h
      obtain ⟨-, h2, -⟩ := h
      exact h2 ▸ ih p u2 post2 hs
    | none =>
      rw [hs] at h
      by_cases hr : m.role = ChatMessageRole.user
      · simp only [if_pos hr, Option.some.injEq, Prod.mk.injEq] at h
        obtain ⟨-, h2, -⟩ := h
        exact h2 ▸ hr
      · simp [if_neg hr] at h

/-- A list `splitLastUser` rejects contains no user message. -/
theorem splitLastUser_eq_none (l : List ChatMessage)
    (h : splitLastUser l = Option.none) :
    ∀ m ∈ l, m.role ≠ ChatMessageRole.user := by
  induction l with
  | nil => simp
  | cons m ms ih =>
    simp only [splitLastUser] at h
    cases hs : splitLastUser ms with
    | some triple => rw [hs] at h; cases h
    | none =>
      rw [hs] at h
      by_cases hr : m.role = ChatMessageRole.user
      · simp [if_pos hr] at h
      · intro x hx
        rcases List.mem_cons.mp hx with rfl | hx
        · exact hr
        · exact ih hs x hx

/-- Image stripping preserves the message role. -/
theorem stripImages_role (m : ChatMessage) :
    (stripImages m).role = m.role := rfl

/-- `prepareMessages` keeps a user message when the input has one. -/
theorem prepareMessages_user (sup : Bool) (msgs : List ChatMessage)
    (h : ∃ m ∈ msgs, m.role = ChatMessageRole.user) :
    ∃ m ∈ prepareMessages sup msgs, m.role = ChatMessageRole.user := by
  obtain ⟨m, hm, hr⟩ := h
  cases sup with
  | true => exact ⟨m, by simpa [prepareMessages], hr⟩
  | false =>
    refine ⟨stripImages m, ?_, by rw [stripImages_role]; exact hr⟩
    simp only [prepareMessages, Bool.false_eq_true, if_neg]
    exact List.mem_map_of_mem stripImages hm

/-- C1: for every model name, message sequence, context length and
maxTokens, the output of `compileChatMessages` has a serialized token
count of at most `contextLength - maxTokens`; and whenever the input
contains a user message, the most recent user message — image-stripped
per rule (1) and, in the single-oversized-message edge case, hard
truncated to the remaining budget — is present in the output with role
user. -/
theorem compileChatMessages_budget_keeps_last_user (model : String)
    (msgs : List ChatMessage) (contextLength maxTokens : Nat)
    (supportsImages : Bool) (systemMessage : Option String) :
    chatTokens model
        (compileChatMessages model msgs contextLength maxTokens
          supportsImages systemMessage) ≤ contextLength - maxTokens ∧
      ((∃ m ∈ msgs, m.role = ChatMessageRole.user) →
        ∃ pre u post,
          splitLastUser (prepareMessages supportsImages msgs) =
              some (pre, u, post) ∧
            truncMsg model u
                ((contextLength - maxTokens) -
                  chatTokens model
                    (sysMessages model (contextLength - maxTokens)
                      systemMessage)) ∈
              compileChatMessages model msgs contextLength maxTokens
                supportsImages systemMessage ∧
            (truncMsg model u
                ((contextLength - maxTokens) -
                  chatTokens model
                    (sysMessages model (contextLength - maxTokens)
                      systemMessage))).role = ChatMessageRole.user) := by
  constructor
  · simp only [compileChatMessages]
    cases h : splitLastUser (prepareMessages supportsImages msgs) with
    | none =>
      rw [chatTokens_append]
      have h1 := chatTokens_sysMessages_le model (contextLength - maxTokens)
        systemMessage
      have h2 := chatTokens_dropOldest_le model
        (prepareMessages supportsImages msgs)
        ((contextLength - maxTokens) -
          chatTokens model
            (sysMessages model (contextLength - maxTokens) systemMessage))
      omega
    | some triple =>
      obtain ⟨pre, u, post⟩ := triple
      simp only
      rw [chatTokens_append, chatTokens_append, chatTokens_append]
      have h1 := chatTokens_sysMessages_le model (contextLength - maxTokens)
        systemMessage
      have h2 := msgTokens_truncMsg_le model u
        ((contextLength - maxTokens) -
          chatTokens model
            (sysMessages model (contextLength - maxTokens) systemMessage))
      have h3 := chatTokens_dropOldest_le model (pre ++ post)
        (((contextLength - maxTokens) -
          chatTokens model
            (sysMessages model (contextLength - maxTokens) systemMessage)) -
          msgTokens model
            (truncMsg model u
              ((contextLength - maxTokens) -
                chatTokens model
                  (sysMessages model (contextLength - maxTokens)
                    systemMessage))))
      set kept := dropOldest model (pre ++ post)
        (((contextLength - maxTokens) -
          chatTokens model
            (sysMessages model (contextLength - maxTokens) systemMessage)) -
          msgTokens model
            (truncMsg model u
              ((contextLength - maxTokens) -
                chatTokens model
                  (sysMessages model (contextLength - maxTokens)
                    systemMessage)))) with hkept
      have htd : chatTokens model (kept.take (kept.length - post.length)) +
          chatTokens model (kept.drop (kept.length - post.length)) =
          chatTokens model kept := by
        rw [← chatTokens_append, List.take_append_drop]
      simp only [chatTokens, List.map_cons, List.sum_cons, List.map_nil,
        List.sum_nil] at *
      omega
  · intro huser
    obtain ⟨m, hm, hr⟩ := prepareMessages_user supportsImages msgs huser
    cases h : splitLastUser (prepareMessages supportsImages msgs) with
    | none => exact absurd hr (splitLastUser_eq_none _ h m hm)
    | some triple =>
      obtain ⟨pre, u, post⟩ := triple
      refine ⟨pre, u, post, rfl, ?_, ?_⟩
      · simp only [compileChatMessages, h]
        simp [List.mem_append]
      · rw [truncMsg_role]
        exact splitLastUser_role _ pre u post h

/-- A concrete conversation for the C1 witness: one older assistant
message and a most recent user message, under a tight budget. -/
def msgs1 : List ChatMessage :=
  [⟨ChatMessageRole.assistant, [.text "aaaaaa"]⟩,
   ⟨ChatMessageRole.user, [.text "hi"]⟩]

/-- Witness for C1: with context length 10 and maxTokens 5 the compiled
sequence fits the budget of 5 and retains the most recent user
message. -/
theorem compileChatMessages_budget_keeps_last_user_witness :
    (∃ m ∈ msgs1, m.role = ChatMessageRole.user) ∧
      chatTokens "m" (compileChatMessages "m" msgs1 10 5 true Option.none) ≤
        10 - 5 ∧
      ∃ pre u post,
        splitLastUser (prepareMessages true msgs1) = some (pre, u, post) ∧
          truncMsg "m" u
              ((10 - 5) -
                chatTokens "m" (sysMessages "m" (10 - 5) Option.none)) ∈
            compileChatMessages "m" msgs1 10 5 true Option.none ∧
          (truncMsg "m" u
              ((10 - 5) -
                chatTokens "m" (sysMessages "m" (10 - 5) Option.none))).role =
            ChatMessageRole.user :=
  ⟨by decide,
    (compileChatMessages_budget_keeps_last_user "m" msgs1 10 5 true
        Option.none).1,
    (compileChatMessages_budget_keeps_last_user "m" msgs1 10 5 true
        Option.none).2 (by decide)⟩

end ContinueLLM
